import Mathlib

/-!
Shallow embedding of `src/photo.go` (package main of louis83/go-angular).

Modelling choices:
* Go pointers (`*Image`) are modelled by an explicit heap: `Heap` is a list of
  `Image` cells and an address (`Addr`) is an index into it.  Allocation
  (`&Image{...}`, `cloneImage`) appends a fresh cell; a write through a pointer
  is `writeH`, a read is `readH`.
* Go `int` is modelled by `Int` (no claim here comes near the 64-bit range).
* `fmt.Sprintf` is modelled for the `%s` verb, the only verb this program uses.
* `log.Fatal` (process termination) is modelled as the `Except.error` branch.
* The SQLite store is modelled with dynamically typed values: the
  `puppy_id integer unique` column applies INTEGER affinity to bound text on
  insert and on IN comparison (so "5" and "05" share the stored key 5), the
  empty IN list `in ()` is accepted and matches no rows, and `rows.Scan` of a
  TEXT key into a Go int fails — an error the source discards.
-/

/-- Image record of the Go source (`type Image struct`): id, title, the two
derived URLs and the two vote counters. -/
structure Image where
  ID : String
  Title : String
  Thumbnail : String
  Large : String
  UpVotes : Int
  DownVotes : Int
deriving DecidableEq

instance : Inhabited Image := ⟨⟨"", "", "", "", 0, 0⟩⟩

/-- Flickr photo record of the Go source (`type Photo struct`); all fields are
strings as in the XML-decoded struct. -/
structure Photo where
  ID : String
  Owner : String
  Secret : String
  Server : String
  Farm : String
  Title : String
  IsPublic : String
  IsFriend : String
  IsFamily : String
  Thumbnail_T : String
  Large_T : String
deriving DecidableEq

/-- Search response of the Go source (`type SearchResponse struct`): the four
pagination attributes arrive as strings. -/
structure SearchResponse where
  Page : String
  Pages : String
  PerPage : String
  Total : String
  Photos : List Photo
deriving DecidableEq

/-- Heap of allocated `Image` cells; a Go `*Image` is an index into it. -/
abbrev Heap := List Image

/-- Address of an allocated `Image` cell (a Go pointer). -/
abbrev Addr := Nat

/-- Dereference a pointer (`*p`). -/
def readH (h : Heap) (a : Addr) : Image := h.getD a default

/-- Write through a pointer (`*p = v`); out-of-range writes are dropped (they
cannot arise from the program, every theorem tracks validity). -/
def writeH (h : Heap) (a : Addr) (v : Image) : Heap := h.set a v

/-- Puppies response of the Go source (`type PuppiesResponse struct`): the four
pagination fields as machine integers plus the image list (slice of pointers). -/
structure PuppiesResponse where
  Page : Int
  Pages : Int
  PerPage : Int
  Total : Int
  Images : List Addr
deriving DecidableEq

/-- Scanned vote row of the Go source (`type DBVote struct`): all four fields
are Go ints, filled by `rows.Scan`. -/
structure DBVote where
  id : Int
  puppy_id : Int
  up_votes : Int
  down_votes : Int
deriving DecidableEq

/-- Dynamically typed SQLite value as stored in the `puppy_id` column: an
INTEGER when the bound text converted under the column's INTEGER affinity, a
TEXT value otherwise. -/
inductive SQLiteVal where
  | intV (n : Int)
  | textV (s : String)
deriving DecidableEq

/-- Stored row of the `votes` table: rowid, the dynamically typed key, and
the two counters (`up_votes`/`down_votes` columns hold the bound integers). -/
structure DBRow where
  id : Int
  puppy_id : SQLiteVal
  up_votes : Int
  down_votes : Int
deriving DecidableEq

/-- Backing store: the single `votes` table, rows in insertion (rowid) order. -/
structure DB where
  votes : List DBRow
deriving DecidableEq

/-- Image manager of the Go source (`type ImageManager struct`): the in-memory
registry (slice of pointers) plus the database handle (its table contents). -/
structure ImageManager where
  images : List Addr
  db : DB
deriving DecidableEq

/-- Size code constants of the Go source. -/
def SizeSmallSquare : String := "s"

/-- Size code for thumbnails (`SizeThumbnail = "t"`). -/
def SizeThumbnail : String := "t"

/-- Size code for small images (`SizeSmall = "m"`). -/
def SizeSmall : String := "m"

/-- Size code for medium-500 images (`SizeMedium500 = "-"`). -/
def SizeMedium500 : String := "-"

/-- Size code for medium-640 images (`SizeMedium640 = "z"`). -/
def SizeMedium640 : String := "z"

/-- Size code for large images (`SizeLarge = "b"`). -/
def SizeLarge : String := "b"

/-- Size code for original images (`SizeOriginal = "o"`). -/
def SizeOriginal : String := "o"

/-- Character-level interpreter for `fmt.Sprintf` restricted to the `%s` verb
(the only verb appearing in this program's format strings).  The boolean says
whether the previous character was an unconsumed `%`.  A missing argument
renders as Go's `%!s(MISSING)`. -/
def sprintfAux : Bool → List Char → List String → List Char
  | _, [], _ => []
  | pending, c :: rest, args =>
    if pending then
      if c = 's' then
        match args with
        | a :: args2 => a.data ++ sprintfAux false rest args2
        | [] => "%!s(MISSING)".data ++ sprintfAux false rest []
      else '%' :: c :: sprintfAux false rest args
    else if c = '%' then sprintfAux true rest args
    else c :: sprintfAux false rest args

/-- Model of `fmt.Sprintf` for `%s`-only format strings. -/
def Sprintf (fmt : String) (args : List String) : String :=
  String.mk (sprintfAux false fmt.data args)

/-- URL builder of the Go source (`func (p *Photo) URL(size string) string`):
for size `"-"` the size suffix is omitted, otherwise it is appended between the
secret and `.jpg`. -/
def URL (p : Photo) (size : String) : String :=
  if size = "-" then
    Sprintf "http://farm%s.static.flickr.com/%s/%s_%s.jpg"
      [p.Farm, p.Server, p.ID, p.Secret]
  else
    Sprintf "http://farm%s.static.flickr.com/%s/%s_%s_%s.jpg"
      [p.Farm, p.Server, p.ID, p.Secret, size]

/-- Concrete photo used to instantiate hypotheses of the universally quantified
theorems at one input. -/
def photoW : Photo := ⟨"10", "own", "sec", "srv", "7", "pup", "1", "0", "0", "", ""⟩

/-- True when the character is an ASCII decimal digit. -/
def isDigitCh (c : Char) : Bool := '0' ≤ c && c ≤ '9'

/-- Numeric value of a run of decimal digits. -/
def digitsVal (l : List Char) : Nat := l.foldl (fun n c => n * 10 + (c.toNat - 48)) 0

/-- Strip one optional leading sign, as strconv.Atoi does. -/
def stripSign (l : List Char) : List Char :=
  match l with
  | '-' :: r => r
  | '+' :: r => r
  | l => l

/-- True when the (sign-stripped) string denotes a negative number. -/
def signOf (l : List Char) : Bool :=
  match l with
  | '-' :: _ => true
  | _ => false

/-- Model of `strconv.Atoi` on a 64-bit platform, returning the value together
with an error flag (`true` = non-nil error).  A syntax error (empty digit run
or a non-digit character) yields value 0; an out-of-range number yields the
clamped int64 bound.  Both match `strconv.ParseInt(s, 10, 0)`. -/
def Atoi (s : String) : Int × Bool :=
  let ds := stripSign s.data
  if ds.isEmpty || !ds.all isDigitCh then (0, true)
  else
    let v : Int := if signOf s.data then -(digitsVal ds : Int) else (digitsVal ds : Int)
    if v < -(2 ^ 63) then (-(2 ^ 63), true)
    else if (2 ^ 63 - 1 : Int) < v then (2 ^ 63 - 1, true)
    else (v, false)

/-- Strings on which `strconv.Atoi` reports a syntax error (and returns 0):
after stripping one optional sign, no nonempty all-digit run remains. -/
def NonNumeric (s : String) : Bool :=
  (stripSign s.data).isEmpty || !(stripSign s.data).all isDigitCh

/-- Integer value of an integer-shaped string (optional sign then digits),
the key under which SQLite's INTEGER affinity stores such text. -/
def affKey (s : String) : Int :=
  if signOf s.data then -(digitsVal (stripSign s.data) : Int)
  else (digitsVal (stripSign s.data) : Int)

/-- INTEGER-affinity conversion applied by SQLite when a text value is bound
into (or compared against) the `puppy_id integer` column: a well-formed
integer literal — one optional sign followed by digits, so "5", "05" and "+5"
all convert to the integer 5 — is stored as that INTEGER; any other text is
stored as TEXT.  (Whitespace-padded and real-number literals are not
modelled; the program's photo ids never carry them.) -/
def intAffinity (s : String) : SQLiteVal :=
  if NonNumeric s then SQLiteVal.textV s else SQLiteVal.intV (affKey s)

/-- Model of `ImageManager.GetPuppiesResponse`.  In the Go source the four
`strconv.Atoi` calls reassign the single `err` variable, so the `err != nil`
check only sees the conversion error of `Total`. -/
def GetPuppiesResponse (m : ImageManager) (searchResponse : SearchResponse) :
    Option PuppiesResponse :=
  let page := Atoi searchResponse.Page
  let pages := Atoi searchResponse.Pages
  let perPage := Atoi searchResponse.PerPage
  let total := Atoi searchResponse.Total
  if total.2 then none
  else some ⟨page.1, pages.1, perPage.1, total.1, m.images⟩

/-- Model of `ImageManager.NewImage`: allocates a fresh `Image` built from the
photo, with the two derived URLs and zero vote counts; returns the extended
heap and the new pointer. -/
def NewImage (h : Heap) (photo : Photo) : Heap × Addr :=
  (h ++ [⟨photo.ID, photo.Title, URL photo SizeThumbnail, URL photo SizeLarge, 0, 0⟩],
    h.length)

/-- Model of `cloneImage`: dereference the pointer and allocate a copy
(`c := *i; return &c`). -/
def cloneImage (h : Heap) (i : Addr) : Heap × Addr :=
  (h ++ [readH h i], h.length)

/-- Model of `ImageManager.Save`: if some registry entry already has the id of
the given image the call is a no-op returning a nil error; otherwise a clone
of the image is appended to the registry.  The error is always nil. -/
def Save (h : Heap) (m : ImageManager) (image : Addr) :
    Heap × ImageManager × Option String :=
  if m.images.any (fun a => (readH h a).ID == (readH h image).ID) then
    (h, m, none)
  else
    ((cloneImage h image).1,
      { m with images := m.images ++ [(cloneImage h image).2] }, none)

/-- Model of `ImageManager.Find`: first registry pointer whose image has the
id, or `none` (Go's `(nil, false)`). -/
def Find (h : Heap) (m : ImageManager) (ID : String) : Option Addr :=
  m.images.find? (fun a => (readH h a).ID == ID)

/-- One vote application of `Update`: an up-vote increments `UpVotes`, a
down-vote DEcrements `DownVotes` (the asymmetry present in the source). -/
def voteStep (i : Image) (upOrDown : Bool) : Image :=
  if upOrDown then { i with UpVotes := i.UpVotes + 1 }
  else { i with DownVotes := i.DownVotes - 1 }

/-- Loop body assignments of `Update`
(`im.UpVotes = image.UpVotes; im.DownVotes = image.DownVotes`). -/
def setCounts (i : Image) (u d : Int) : Image :=
  { i with UpVotes := u, DownVotes := d }

/-- Synchronisation loop of `Update`: every registry entry whose id equals the
voted image's id receives the voted image's current counters. -/
def syncLoop (target : Addr) : List Addr → Heap → Heap
  | [], h => h
  | a :: rest, h =>
    syncLoop target rest
      (if (readH h a).ID == (readH h target).ID then
        writeH h a
          (setCounts (readH h a) (readH h target).UpVotes (readH h target).DownVotes)
      else h)

/-- Model of `ImageManager.Update`: mutate the caller's image through its
pointer, synchronise every matching registry entry, and return the image's
resulting counters. -/
def Update (h : Heap) (m : ImageManager) (image : Addr) (upOrDown : Bool) :
    Heap × Int × Int :=
  let h1 := writeH h image (voteStep (readH h image) upOrDown)
  let h2 := syncLoop image m.images h1
  (h2, (readH h2 image).UpVotes, (readH h2 image).DownVotes)

/-- Model of `ImageManager.All`: the registry slice itself (live pointers). -/
def All (m : ImageManager) : List Addr := m.images

/-- N consecutive `Update` calls on the same image pointer (heap component). -/
def updateN (n : Nat) (upOrDown : Bool) (h : Heap) (m : ImageManager) (image : Addr) :
    Heap :=
  match n with
  | 0 => h
  | n + 1 => updateN n upOrDown (Update h m image upOrDown).1 m image

/-- Validity of the registry: every stored pointer is an allocated cell. -/
def WFregistry (h : Heap) (m : ImageManager) : Prop :=
  ∀ a ∈ m.images, a < h.length

instance (h : Heap) (m : ImageManager) : Decidable (WFregistry h m) := by
  unfold WFregistry
  infer_instance

/-- Concrete two-cell heap used by witnesses: cell 0 is the caller-owned image,
cell 1 the registry-owned clone sharing id "1" (the state reached by
`NewImage` followed by `Save`). -/
def heapW : Heap := [⟨"1", "pup", "u", "l", 0, 0⟩, ⟨"1", "pup", "u", "l", 0, 0⟩]

/-- Concrete manager whose registry holds exactly the clone at cell 1. -/
def mgrW : ImageManager := ⟨[1], ⟨[]⟩⟩

/-- Concrete heap for the unmatched-Update witness: cell 0 (caller-owned) has
id "2", cell 1 (registry-owned) has id "1". -/
def heapW2 : Heap := [⟨"2", "t2", "u2", "l2", 3, 4⟩, ⟨"1", "pup", "u", "l", 0, 0⟩]

/-- Concrete heap for the duplicate-Save witness: two caller-owned images
sharing id "1" with different payloads and counts. -/
def heapW3 : Heap := [⟨"1", "a", "b", "c", 5, 6⟩, ⟨"1", "x", "y", "z", 7, 8⟩]

/-- Concrete one-cell heap for the copy-on-Save witness. -/
def heapW4 : Heap := [⟨"9", "t", "u", "l", 2, 3⟩]

/-- Heap after NewImage of photoW on the empty heap. -/
def heapC4 : Heap := (NewImage [] photoW).1

/-- Caller pointer returned by that NewImage. -/
def ptrC4 : Addr := (NewImage [] photoW).2

/-- State after Save of the fresh image into an empty manager. -/
def saveC4 : Heap × ImageManager × Option String := Save heapC4 ⟨[], ⟨[]⟩⟩ ptrC4

/-- State after one down-vote through the caller pointer. -/
def updC4 : Heap × Int × Int := Update saveC4.1 saveC4.2.1 ptrC4 false

/-- Model of `strings.Repeat`: the string repeated count times. -/
def stringsRepeat (s : String) : Nat → String
  | 0 => ""
  | n + 1 => s ++ stringsRepeat s n

/-- Model of `strings.Split` with the empty separator, the only way the
source calls it: the list of the input's one-character strings. -/
def splitEmptySep (s : String) : List String :=
  s.data.map (fun c => String.mk [c])

/-- Model of `strings.Join`: the elements interleaved with the separator. -/
def stringsJoin : List String → String → String
  | [], _ => ""
  | [s], _ => s
  | s :: rest, sep => s ++ sep ++ stringsJoin rest sep

/-- Query string built by `FindOldPuppies` for a given id list:
`select * from votes where puppy_id in (?,...,?)` with one placeholder per
id, via Repeat, Split and Join exactly as in the source. -/
def findQuery (ids : List String) : String :=
  Sprintf "select * from votes where puppy_id in (%s)"
    [stringsJoin (splitEmptySep (stringsRepeat "?" ids.length)) ","]

/-- Model of the external SQLite engine preparing the search query: SQLite
accepts the parenthesized IN list even when it is empty (`in ()` is valid and
matches no rows), so preparation succeeds for every placeholder count; the
prepared statement is represented by its placeholder count.  The Go code's
`if err != nil { log.Fatal }` branch after Prepare is therefore dead for the
queries this program builds. -/
def prepareFindStmt (query : String) : Except String Nat :=
  Except.ok (query.data.countP (fun c => c == '?'))

/-- Row predicate of the executed query `puppy_id in (?,...,?)` with the id
strings bound as parameters: the column has INTEGER affinity, so each bound
text parameter is converted under that affinity before the comparison (the
parameter "05" matches a stored 5). -/
def rowMatches (ids : List String) (r : DBRow) : Bool :=
  ids.any (fun id => intAffinity id == r.puppy_id)

/-- Model of `rows.Scan(&v.id, &v.puppy_id, &v.up_votes, &v.down_votes)` into
the Go int fields of DBVote, with the source ignoring Scan's error: a stored
INTEGER key scans cleanly; a stored TEXT key fails the int conversion at the
second column, and since the error is discarded the remaining fields keep
their zero values. -/
def scanRow (r : DBRow) : DBVote :=
  match r.puppy_id with
  | SQLiteVal.intV n => ⟨r.id, n, r.up_votes, r.down_votes⟩
  | SQLiteVal.textV _ => ⟨r.id, 0, 0, 0⟩

/-- Model of `ImageManager.FindOldPuppies`: builds the IN query sized to the
id list, prepares it (the fatal branch is dead: the query is always valid
SQLite, including the empty IN list), executes it with the ids as parameters
and scans every matching row. -/
def FindOldPuppies (m : ImageManager) (ids : List String) :
    Except String (List DBVote) :=
  match prepareFindStmt (findQuery ids) with
  | Except.error e => Except.error e
  | Except.ok _ => Except.ok ((m.db.votes.filter (rowMatches ids)).map scanRow)

/-- Characters that are not `%` are copied verbatim by the formatter. -/
theorem sprintfAux_lit (pre rest : List Char) (args : List String) (hp : '%' ∉ pre) :
    sprintfAux false (pre ++ rest) args = pre ++ sprintfAux false rest args := by
  induction pre with
  | nil => rfl
  | cons c pre ih =>
    have hc : c ≠ '%' := fun h => hp (h ▸ List.mem_cons_self c pre)
    have hp' : '%' ∉ pre := fun h => hp (List.mem_cons_of_mem c h)
    simp [sprintfAux, hc, ih hp']

/-- A `%s` verb consumes the next argument. -/
theorem sprintfAux_verb (rest : List Char) (a : String) (args : List String) :
    sprintfAux false ('%' :: 's' :: rest) (a :: args) = a.data ++ sprintfAux false rest args := by
  simp [sprintfAux]

/-- Formatting an exhausted format string yields nothing. -/
theorem sprintfAux_nil (b : Bool) (args : List String) : sprintfAux b [] args = [] := rfl

/-- Two strings with the same character data are equal. -/
theorem string_data_ext (l : List Char) (t : String) (h : l = t.data) :
    String.mk l = t := by
  cases t
  exact congrArg String.mk h

/-- Decomposition of the no-size format string into literal runs and verbs. -/
theorem fmtNoSize_data :
    ("http://farm%s.static.flickr.com/%s/%s_%s.jpg" : String).data =
      "http://farm".data ++ '%' :: 's' ::
        (".static.flickr.com/".data ++ '%' :: 's' ::
          ("/".data ++ '%' :: 's' :: ("_".data ++ '%' :: 's' :: ".jpg".data))) := by
  decide

/-- Decomposition of the sized format string into literal runs and verbs. -/
theorem fmtSize_data :
    ("http://farm%s.static.flickr.com/%s/%s_%s_%s.jpg" : String).data =
      "http://farm".data ++ '%' :: 's' ::
        (".static.flickr.com/".data ++ '%' :: 's' ::
          ("/".data ++ '%' :: 's' ::
            ("_".data ++ '%' :: 's' :: ("_".data ++ '%' :: 's' :: ".jpg".data)))) := by
  decide

/- ------------------------------------------------------------------ -/
/- C8                                                                 -/
/- ------------------------------------------------------------------ -/

/-- C8: for every photo record, `URL size` is the string
`http://farm<farm>.static.flickr.com/<server>/<id>_<secret>_<size>.jpg`,
except that for size `"-"` (medium-500) the trailing `_<size>` segment is
omitted; being a total Lean function it is pure and never fails. -/
theorem URL_format (p : Photo) (size : String) :
    (size = "-" → URL p size =
      "http://farm" ++ p.Farm ++ ".static.flickr.com/" ++ p.Server ++ "/" ++
        p.ID ++ "_" ++ p.Secret ++ ".jpg")
    ∧ (size ≠ "-" → URL p size =
      "http://farm" ++ p.Farm ++ ".static.flickr.com/" ++ p.Server ++ "/" ++
        p.ID ++ "_" ++ p.Secret ++ "_" ++ size ++ ".jpg") := by
  constructor
  · intro h
    rw [URL, if_pos h, Sprintf]
    apply string_data_ext
    rw [fmtNoSize_data,
      sprintfAux_lit _ _ _ (by decide), sprintfAux_verb,
      sprintfAux_lit _ _ _ (by decide), sprintfAux_verb,
      sprintfAux_lit _ _ _ (by decide), sprintfAux_verb,
      sprintfAux_lit _ _ _ (by decide), sprintfAux_verb]
    simp [String.data_append, sprintfAux]
  · intro h
    rw [URL, if_neg h, Sprintf]
    apply string_data_ext
    rw [fmtSize_data,
      sprintfAux_lit _ _ _ (by decide), sprintfAux_verb,
      sprintfAux_lit _ _ _ (by decide), sprintfAux_verb,
      sprintfAux_lit _ _ _ (by decide), sprintfAux_verb,
      sprintfAux_lit _ _ _ (by decide), sprintfAux_verb,
      sprintfAux_lit _ _ _ (by decide), sprintfAux_verb]
    simp [String.data_append, sprintfAux]

/-- Witness for C8 at a concrete photo and both branches of the size split. -/
theorem URL_format_witness :
    URL photoW "-" = "http://farm7.static.flickr.com/srv/10_sec.jpg"
    ∧ URL photoW "b" = "http://farm7.static.flickr.com/srv/10_sec_b.jpg" :=
  ⟨(URL_format photoW "-").1 rfl, (URL_format photoW "b").2 (by decide)⟩

/- ------------------------------------------------------------------ -/
/- C2 and C9: pagination conversion in GetPuppiesResponse.            -/
/- ------------------------------------------------------------------ -/

/-- On a syntax error, Atoi returns value 0 with the error flag set. -/
theorem Atoi_nonNumeric (s : String) (h : NonNumeric s = true) : Atoi s = (0, true) := by
  unfold Atoi
  unfold NonNumeric at h
  simp only [Bool.or_eq_true] at h
  rcases h with h | h
  · simp [h]
  · simp [h]

/-- C2 counterexample: a search response whose Page field is non-numeric but
whose Total field is numeric is NOT translated to no result; the code returns
a partially populated summary with Page = 0, refuting the claim that any of
the four fields failing conversion makes the whole translation fail. -/
theorem getPuppies_bad_page_not_nil :
    GetPuppiesResponse ⟨[], ⟨[]⟩⟩ ⟨"x", "2", "3", "4", []⟩ = some ⟨0, 2, 3, 4, []⟩ := by
  decide

/-- C2 (amended): the translation returns no result when the Total field fails
integer conversion; when all four pagination fields convert, it returns the
summary holding the four converted integers and the current image list. -/
theorem getPuppies_total_gate (m : ImageManager) (r : SearchResponse) :
    ((Atoi r.Total).2 = true → GetPuppiesResponse m r = none)
    ∧ ((Atoi r.Page).2 = false → (Atoi r.Pages).2 = false → (Atoi r.PerPage).2 = false →
        (Atoi r.Total).2 = false →
        GetPuppiesResponse m r =
          some ⟨(Atoi r.Page).1, (Atoi r.Pages).1, (Atoi r.PerPage).1, (Atoi r.Total).1,
            m.images⟩) := by
  constructor
  · intro h
    simp [GetPuppiesResponse, h]
  · intro _ _ _ h4
    simp [GetPuppiesResponse, h4]

/-- Witness for C2's amended theorem: both branches at concrete inputs. -/
theorem getPuppies_total_gate_witness :
    GetPuppiesResponse ⟨[], ⟨[]⟩⟩ ⟨"1", "2", "3", "4", []⟩ = some ⟨1, 2, 3, 4, []⟩
    ∧ GetPuppiesResponse ⟨[], ⟨[]⟩⟩ ⟨"1", "2", "3", "nope", []⟩ = none :=
  ⟨(getPuppies_total_gate ⟨[], ⟨[]⟩⟩ ⟨"1", "2", "3", "4", []⟩).2
      (by decide) (by decide) (by decide) (by decide),
   (getPuppies_total_gate ⟨[], ⟨[]⟩⟩ ⟨"1", "2", "3", "nope", []⟩).1 (by decide)⟩

/-- C9: GetPuppiesResponse returns no result exactly when the Total field
fails integer conversion; when Total converts, the result is present even if
the other fields are non-numeric, and every non-numeric field among Page,
Pages and PerPage appears as 0 in the summary. -/
theorem getPuppies_err_shadowing (m : ImageManager) (r : SearchResponse) :
    (GetPuppiesResponse m r = none ↔ (Atoi r.Total).2 = true)
    ∧ (∀ resp, GetPuppiesResponse m r = some resp →
        ((NonNumeric r.Page = true → resp.Page = 0)
        ∧ (NonNumeric r.Pages = true → resp.Pages = 0)
        ∧ (NonNumeric r.PerPage = true → resp.PerPage = 0))) := by
  constructor
  · unfold GetPuppiesResponse
    rcases h : (Atoi r.Total).2 <;> simp [h]
  · intro resp hresp
    rcases h : (Atoi r.Total).2 with _ | _
    · simp only [GetPuppiesResponse, h] at hresp
      simp at hresp
      subst hresp
      refine ⟨?_, ?_, ?_⟩ <;> intro hn <;> simp [Atoi_nonNumeric _ hn]
    · simp only [GetPuppiesResponse, h] at hresp
      simp at hresp

/-- Witness for C9 at a concrete response with three non-numeric fields. -/
theorem getPuppies_err_shadowing_witness :
    (GetPuppiesResponse ⟨[], ⟨[]⟩⟩ ⟨"x", "y", "z", "7", []⟩ = none ↔ (Atoi "7").2 = true)
    ∧ (⟨0, 0, 0, 7, []⟩ : PuppiesResponse).Page = 0 :=
  ⟨(getPuppies_err_shadowing ⟨[], ⟨[]⟩⟩ ⟨"x", "y", "z", "7", []⟩).1,
   (((getPuppies_err_shadowing ⟨[], ⟨[]⟩⟩ ⟨"x", "y", "z", "7", []⟩).2
      ⟨0, 0, 0, 7, []⟩ (by decide)).1 (by decide))⟩

/- ------------------------------------------------------------------ -/
/- Heap lemmas.                                                       -/
/- ------------------------------------------------------------------ -/

/-- Writing a cell preserves the heap size. -/
theorem length_writeH (h : Heap) (a : Addr) (v : Image) :
    (writeH h a v).length = h.length := List.length_set h a v

/-- Reading back a just-written valid cell gives the written value. -/
theorem readH_writeH_self (h : Heap) (a : Addr) (v : Image) (ha : a < h.length) :
    readH (writeH h a v) a = v := by
  unfold readH writeH
  rw [List.getD_eq_getElem?_getD, List.getElem?_set_self']
  simp [List.getElem?_eq_getElem ha]

/-- Writing one cell leaves every other cell unchanged. -/
theorem readH_writeH_ne (h : Heap) (b a : Addr) (v : Image) (hab : b ≠ a) :
    readH (writeH h b v) a = readH h a := by
  unfold readH writeH
  rw [List.getD_eq_getElem?_getD, List.getElem?_set_ne hab, ← List.getD_eq_getElem?_getD]

/-- An out-of-range write is dropped. -/
theorem writeH_oob (h : Heap) (a : Addr) (v : Image) (ha : h.length ≤ a) :
    writeH h a v = h := List.set_eq_of_length_le ha

/-- Extending the heap does not change the existing cells. -/
theorem readH_append_lt (h l : Heap) (a : Addr) (ha : a < h.length) :
    readH (h ++ l) a = readH h a := by
  unfold readH
  rw [List.getD_eq_getElem?_getD, List.getElem?_append, if_pos ha,
    ← List.getD_eq_getElem?_getD]

/-- The freshly appended cell is read back at the old length. -/
theorem readH_append_self (h : Heap) (v : Image) :
    readH (h ++ [v]) h.length = v := by
  unfold readH
  rw [List.getD_eq_getElem?_getD]
  simp

/-- Copying counters does not change the id. -/
theorem setCounts_ID (i : Image) (u d : Int) : (setCounts i u d).ID = i.ID := rfl

/-- Copying an image's own counters into it is the identity. -/
theorem setCounts_self (i : Image) : setCounts i i.UpVotes i.DownVotes = i := rfl

/-- Copying the same counters twice equals copying them once. -/
theorem setCounts_idem (i : Image) (u d : Int) :
    setCounts (setCounts i u d) u d = setCounts i u d := rfl

/-- A vote application does not change the id. -/
theorem voteStep_ID (i : Image) (b : Bool) : (voteStep i b).ID = i.ID := by
  cases b <;> rfl

/-- Two predicates agreeing on a list find the same first element. -/
theorem find?_congr (l : List Addr) (f g : Addr → Bool) (h : ∀ a ∈ l, f a = g a) :
    l.find? f = l.find? g := by
  induction l with
  | nil => rfl
  | cons b rest ih =>
    simp only [List.find?]
    rw [h b (List.mem_cons_self b rest), ih (fun a ha => h a (List.mem_cons_of_mem b ha))]

/-- The synchronisation loop preserves the heap size. -/
theorem syncLoop_length (t : Addr) (l : List Addr) (h : Heap) :
    (syncLoop t l h).length = h.length := by
  induction l generalizing h with
  | nil => rfl
  | cons b rest ih =>
    simp only [syncLoop]
    rw [ih]
    split
    · exact length_writeH ..
    · rfl

/-- Pointwise characterisation of the synchronisation loop: a cell listed in
the registry whose id matches the target's id gets the target's counters, and
nothing else changes.  (The target's own cell is never changed in value, since
the loop would only write its own counters back into it.) -/
theorem syncLoop_read (t : Addr) (l : List Addr) (h : Heap) (a : Addr) :
    (∀ b ∈ l, b < h.length) →
    readH (syncLoop t l h) a =
      if a ∈ l ∧ (readH h a).ID = (readH h t).ID then
        setCounts (readH h a) (readH h t).UpVotes (readH h t).DownVotes
      else readH h a := by
  induction l generalizing h with
  | nil => intro _; simp [syncLoop]
  | cons b rest ih =>
    intro hl
    have hb : b < h.length := hl b (List.mem_cons_self b rest)
    have hrest : ∀ x ∈ rest, x < h.length := fun x hx => hl x (List.mem_cons_of_mem b hx)
    by_cases hmb : (readH h b).ID = (readH h t).ID
    · have hstep : syncLoop t (b :: rest) h =
          syncLoop t rest
            (writeH h b (setCounts (readH h b) (readH h t).UpVotes (readH h t).DownVotes)) := by
        simp [syncLoop, hmb]
      set h' := writeH h b (setCounts (readH h b) (readH h t).UpVotes (readH h t).DownVotes)
        with hh'
      have hlen : h'.length = h.length := length_writeH ..
      have hb' : readH h' b = setCounts (readH h b) (readH h t).UpVotes (readH h t).DownVotes :=
        readH_writeH_self _ _ _ hb
      have hother : ∀ x, x ≠ b → readH h' x = readH h x := fun x hx =>
        readH_writeH_ne _ _ _ _ (fun he => hx he.symm)
      have ht' : readH h' t = readH h t := by
        by_cases htb : b = t
        · subst htb
          rw [hb', setCounts_self]
        · exact hother t (fun he => htb he.symm)
      have hID : ∀ x, (readH h' x).ID = (readH h x).ID := by
        intro x
        by_cases hxb : x = b
        · subst hxb
          rw [hb', setCounts_ID]
        · rw [hother x hxb]
      have hrest' : ∀ x ∈ rest, x < h'.length := by
        rw [hlen]; exact hrest
      rw [hstep, ih h' hrest', ht', hID a]
      by_cases hma : (readH h a).ID = (readH h t).ID
      · by_cases hab : a = b
        · subst hab
          rw [hb']
          by_cases har : a ∈ rest
          · simp [hma, har, setCounts_idem]
          · simp [hma, har]
        · rw [hother a hab]
          simp [hma, hab]
      · by_cases hab : a = b
        · exact absurd hmb (hab ▸ hma)
        · rw [hother a hab]
          simp [hma]
    · have hstep : syncLoop t (b :: rest) h = syncLoop t rest h := by
        simp [syncLoop, hmb]
      rw [hstep, ih h hrest]
      by_cases hab : a = b
      · subst hab
        simp [hmb]
      · simp [hab]

/-- Copying a vote step's counters into the original image is the vote step
itself (a vote step only changes counters). -/
theorem setCounts_voteStep (i : Image) (b : Bool) :
    setCounts i (voteStep i b).UpVotes (voteStep i b).DownVotes = voteStep i b := by
  cases b <;> rfl

/-- Update preserves the heap size. -/
theorem Update_length (h : Heap) (m : ImageManager) (image : Addr) (b : Bool) :
    (Update h m image b).1.length = h.length := by
  show (syncLoop image m.images (writeH h image (voteStep (readH h image) b))).length = _
  rw [syncLoop_length, length_writeH]

/-- Pointwise characterisation of the heap produced by Update: the voted image
is stepped; registry entries sharing its id receive the stepped counters;
everything else is untouched. -/
theorem Update_read (h : Heap) (m : ImageManager) (image : Addr) (isUp : Bool)
    (himg : image < h.length) (hWF : WFregistry h m) (a : Addr) :
    readH (Update h m image isUp).1 a =
      if a ∈ m.images ∧ (readH h a).ID = (readH h image).ID then
        setCounts (if a = image then voteStep (readH h image) isUp else readH h a)
          (voteStep (readH h image) isUp).UpVotes (voteStep (readH h image) isUp).DownVotes
      else if a = image then voteStep (readH h image) isUp else readH h a := by
  have hWF1 : ∀ b ∈ m.images, b < (writeH h image (voteStep (readH h image) isUp)).length := by
    rw [length_writeH]; exact hWF
  have hima : readH (writeH h image (voteStep (readH h image) isUp)) image
      = voteStep (readH h image) isUp := readH_writeH_self _ _ _ himg
  have hothers : ∀ x, x ≠ image →
      readH (writeH h image (voteStep (readH h image) isUp)) x = readH h x := fun x hx =>
    readH_writeH_ne _ _ _ _ (fun he => hx he.symm)
  show readH (syncLoop image m.images (writeH h image (voteStep (readH h image) isUp))) a = _
  rw [syncLoop_read image m.images _ a hWF1, hima]
  by_cases hai : a = image
  · subst hai
    rw [hima]
    by_cases ham : a ∈ m.images <;> simp [ham, voteStep_ID, setCounts_self]
  · rw [hothers a hai]
    simp [hai, voteStep_ID]

/-- The voted image's cell always ends up holding exactly the stepped image. -/
theorem Update_read_self (h : Heap) (m : ImageManager) (image : Addr) (isUp : Bool)
    (himg : image < h.length) (hWF : WFregistry h m) :
    readH (Update h m image isUp).1 image = voteStep (readH h image) isUp := by
  rw [Update_read h m image isUp himg hWF image]
  by_cases ham : image ∈ m.images <;> simp [ham, setCounts_self]

/-- N consecutive up-votes add N to the voted image's up-vote count. -/
theorem updateN_up (n : Nat) : ∀ (h : Heap) (m : ImageManager) (image : Addr),
    image < h.length → WFregistry h m →
    (readH (updateN n true h m image) image).UpVotes = (readH h image).UpVotes + n := by
  induction n with
  | zero => intro h m image _ _; simp [updateN]
  | succ n ih =>
    intro h m image himg hWF
    have hlen : (Update h m image true).1.length = h.length := Update_length ..
    have himg' : image < (Update h m image true).1.length := by rw [hlen]; exact himg
    have hWF' : WFregistry (Update h m image true).1 m := by
      intro a ha; rw [hlen]; exact hWF a ha
    show (readH (updateN n true (Update h m image true).1 m image) image).UpVotes = _
    rw [ih (Update h m image true).1 m image himg' hWF',
      Update_read_self h m image true himg hWF]
    simp [voteStep]
    omega

/-- N consecutive down-votes subtract N from the voted image's down-vote
count (the source decrements on a down-vote). -/
theorem updateN_down (n : Nat) : ∀ (h : Heap) (m : ImageManager) (image : Addr),
    image < h.length → WFregistry h m →
    (readH (updateN n false h m image) image).DownVotes
      = (readH h image).DownVotes - n := by
  induction n with
  | zero => intro h m image _ _; simp [updateN]
  | succ n ih =>
    intro h m image himg hWF
    have hlen : (Update h m image false).1.length = h.length := Update_length ..
    have himg' : image < (Update h m image false).1.length := by rw [hlen]; exact himg
    have hWF' : WFregistry (Update h m image false).1 m := by
      intro a ha; rw [hlen]; exact hWF a ha
    show (readH (updateN n false (Update h m image false).1 m image) image).DownVotes = _
    rw [ih (Update h m image false).1 m image himg' hWF',
      Update_read_self h m image false himg hWF]
    simp [voteStep]
    omega

/- ------------------------------------------------------------------ -/
/- C1                                                                 -/
/- ------------------------------------------------------------------ -/

/-- C1: for an image already saved in the registry, Update increments the
image's up-vote count when isUpvote is true and decrements its down-vote
count by one otherwise, copies the new counters into every registry entry
sharing that id, and returns the resulting pair; iterated, N consecutive
up-votes add N to the up-vote count and N consecutive down-votes subtract N
from the down-vote count. -/
theorem Update_tally (h : Heap) (m : ImageManager) (image : Addr) (isUp : Bool)
    (himg : image < h.length) (hWF : WFregistry h m)
    (_hsaved : ∃ a ∈ m.images, (readH h a).ID = (readH h image).ID) :
    ((Update h m image isUp).2.1 = (voteStep (readH h image) isUp).UpVotes
      ∧ (Update h m image isUp).2.2 = (voteStep (readH h image) isUp).DownVotes)
    ∧ readH (Update h m image isUp).1 image = voteStep (readH h image) isUp
    ∧ (∀ a ∈ m.images, (readH h a).ID = (readH h image).ID →
        readH (Update h m image isUp).1 a =
          setCounts (readH h a) (voteStep (readH h image) isUp).UpVotes
            (voteStep (readH h image) isUp).DownVotes)
    ∧ (∀ n : Nat, (readH (updateN n true h m image) image).UpVotes
          = (readH h image).UpVotes + n)
    ∧ (∀ n : Nat, (readH (updateN n false h m image) image).DownVotes
          = (readH h image).DownVotes - n) := by
  refine ⟨⟨?_, ?_⟩, Update_read_self h m image isUp himg hWF, ?_, ?_, ?_⟩
  · show (readH (Update h m image isUp).1 image).UpVotes = _
    rw [Update_read_self h m image isUp himg hWF]
  · show (readH (Update h m image isUp).1 image).DownVotes = _
    rw [Update_read_self h m image isUp himg hWF]
  · intro a ha hid
    by_cases hai : a = image
    · rw [hai, Update_read_self h m image isUp himg hWF]
      exact (setCounts_voteStep (readH h image) isUp).symm
    · rw [Update_read h m image isUp himg hWF a]
      simp [ha, hid, hai]
  · exact fun n => updateN_up n h m image himg hWF
  · exact fun n => updateN_down n h m image himg hWF

/-- Witness for C1: one concrete up-vote through the caller's pointer lands in
the registry entry sharing the id. -/
theorem Update_tally_witness :
    readH (Update heapW mgrW 0 true).1 1 = ⟨"1", "pup", "u", "l", 1, 0⟩ := by
  have hth := Update_tally heapW mgrW 0 true (by decide) (by decide)
    ⟨1, by decide, by decide⟩
  rw [hth.2.2.1 1 (by decide) (by decide)]
  decide

/- ------------------------------------------------------------------ -/
/- C10                                                                -/
/- ------------------------------------------------------------------ -/

/-- C10: Update with an image whose id matches no registry entry leaves every
registry entry (as observed through All and Find) unchanged, while the
passed-in image is still mutated through its pointer and the returned pair
reflects its updated counters. -/
theorem Update_unmatched_frame (h : Heap) (m : ImageManager) (image : Addr) (isUp : Bool)
    (himg : image < h.length) (hWF : WFregistry h m)
    (hnone : ∀ a ∈ m.images, (readH h a).ID ≠ (readH h image).ID) :
    (∀ a ∈ All m, readH (Update h m image isUp).1 a = readH h a)
    ∧ (∀ id, Find (Update h m image isUp).1 m id = Find h m id)
    ∧ readH (Update h m image isUp).1 image = voteStep (readH h image) isUp
    ∧ (Update h m image isUp).2.1 = (voteStep (readH h image) isUp).UpVotes
    ∧ (Update h m image isUp).2.2 = (voteStep (readH h image) isUp).DownVotes := by
  have hframe : ∀ a ∈ m.images, readH (Update h m image isUp).1 a = readH h a := by
    intro a ha
    rw [Update_read h m image isUp himg hWF a]
    have hai : a ≠ image := fun he => hnone a ha (by rw [he])
    simp [hnone a ha, hai]
  refine ⟨hframe, ?_, Update_read_self h m image isUp himg hWF, ?_, ?_⟩
  · intro id
    unfold Find
    exact find?_congr _ _ _ (fun a ha => by rw [hframe a ha])
  · show (readH (Update h m image isUp).1 image).UpVotes = _
    rw [Update_read_self h m image isUp himg hWF]
  · show (readH (Update h m image isUp).1 image).DownVotes = _
    rw [Update_read_self h m image isUp himg hWF]

/-- Witness for C10: a down-vote on an unregistered id leaves the registry
cell untouched and mutates only the caller's cell. -/
theorem Update_unmatched_frame_witness :
    readH (Update heapW2 mgrW 0 false).1 1 = ⟨"1", "pup", "u", "l", 0, 0⟩
    ∧ readH (Update heapW2 mgrW 0 false).1 0 = ⟨"2", "t2", "u2", "l2", 3, 3⟩ := by
  have hth := Update_unmatched_frame heapW2 mgrW 0 false (by decide) (by decide) (by decide)
  constructor
  · rw [hth.1 1 (by decide)]
    decide
  · rw [hth.2.2.1]
    decide

/- ------------------------------------------------------------------ -/
/- C4                                                                 -/
/- ------------------------------------------------------------------ -/

/-- C4 refutation (bug in the code): starting from the empty registry, the
operation sequence NewImage, Save, then one down-vote Update produces a
registry entry whose down-vote count is -1, so reachable states do not keep
the down-vote count non-negative — Update decrements DownVotes on a
down-vote instead of incrementing it. -/
theorem downvote_goes_negative :
    saveC4.2.2 = none
    ∧ saveC4.2.1.images = [1]
    ∧ (readH updC4.1 1).DownVotes = -1
    ∧ updC4.2.2 = -1 := by
  decide

/- ------------------------------------------------------------------ -/
/- C5                                                                 -/
/- ------------------------------------------------------------------ -/

/-- C5: registry ids are unique: saving two images sharing one id leaves the
registry with exactly one entry for that id, holding the first image's field
values; both calls return a nil error and the second call changes nothing. -/
theorem Save_idempotent (h : Heap) (m : ImageManager) (a1 a2 : Addr)
    (_ha1 : a1 < h.length) (ha2 : a2 < h.length) (hWF : WFregistry h m)
    (heq : (readH h a2).ID = (readH h a1).ID)
    (hfresh : ∀ a ∈ m.images, (readH h a).ID ≠ (readH h a1).ID) :
    (Save h m a1).2.2 = none
    ∧ (Save (Save h m a1).1 (Save h m a1).2.1 a2).2.2 = none
    ∧ (Save (Save h m a1).1 (Save h m a1).2.1 a2).1 = (Save h m a1).1
    ∧ (Save (Save h m a1).1 (Save h m a1).2.1 a2).2.1 = (Save h m a1).2.1
    ∧ (Save h m a1).2.1.images = m.images ++ [h.length]
    ∧ (Save h m a1).2.1.images.countP
        (fun a => (readH (Save h m a1).1 a).ID == (readH h a1).ID) = 1
    ∧ readH (Save h m a1).1 h.length = readH h a1 := by
  have hcond : ¬((m.images.any fun a => (readH h a).ID == (readH h a1).ID) = true) := by
    simp only [List.any_eq_true]
    rintro ⟨a, ha, hb⟩
    exact hfresh a ha (by simpa using hb)
  have hsave : Save h m a1 =
      (h ++ [readH h a1], { m with images := m.images ++ [h.length] }, none) := by
    simp only [Save]
    rw [if_neg hcond]
    rfl
  have hrlen : readH (h ++ [readH h a1]) h.length = readH h a1 :=
    readH_append_self h (readH h a1)
  have hr2 : readH (h ++ [readH h a1]) a2 = readH h a2 := readH_append_lt _ _ _ ha2
  have hcond2 : ((m.images ++ [h.length]).any
      (fun a => (readH (h ++ [readH h a1]) a).ID == (readH (h ++ [readH h a1]) a2).ID))
        = true := by
    rw [List.any_eq_true]
    refine ⟨h.length, by simp, ?_⟩
    rw [hrlen, hr2]
    simp [heq]
  rw [hsave]
  refine ⟨rfl, ?_, ?_, ?_, rfl, ?_, hrlen⟩
  · simp only [Save]
    rw [if_pos hcond2]
  · simp only [Save]
    rw [if_pos hcond2]
  · simp only [Save]
    rw [if_pos hcond2]
  · rw [List.countP_append]
    have h0 : m.images.countP
        (fun a => (readH (h ++ [readH h a1]) a).ID == (readH h a1).ID) = 0 := by
      rw [List.countP_eq_zero]
      intro a ha
      rw [readH_append_lt _ _ _ (hWF a ha)]
      simpa using hfresh a ha
    rw [h0]
    simp [List.countP_cons, hrlen]

/-- Witness for C5: the registry keeps the first image's payload after a
duplicate save. -/
theorem Save_idempotent_witness :
    readH (Save heapW3 ⟨[], ⟨[]⟩⟩ 0).1 2 = ⟨"1", "a", "b", "c", 5, 6⟩
    ∧ (Save (Save heapW3 ⟨[], ⟨[]⟩⟩ 0).1 (Save heapW3 ⟨[], ⟨[]⟩⟩ 0).2.1 1).2.1
        = (Save heapW3 ⟨[], ⟨[]⟩⟩ 0).2.1 := by
  have hth := Save_idempotent heapW3 ⟨[], ⟨[]⟩⟩ 0 1 (by decide) (by decide) (by decide)
    (by decide) (by decide)
  exact ⟨hth.2.2.2.2.2.2.trans (by decide), hth.2.2.2.1⟩

/- ------------------------------------------------------------------ -/
/- C6                                                                 -/
/- ------------------------------------------------------------------ -/

/-- C6: Save inserts a copy: after saving an image under a fresh id, the
registry's entry lives at a different address than the caller's instance,
holds the same value, and later writes through the caller's pointer leave the
stored entry unchanged; Find returns the stored (distinct) pointer. -/
theorem Save_copies (h : Heap) (m : ImageManager) (image : Addr)
    (himg : image < h.length) (hWF : WFregistry h m)
    (hfresh : ∀ a ∈ m.images, (readH h a).ID ≠ (readH h image).ID) :
    (Save h m image).2.2 = none
    ∧ (Save h m image).2.1.images = m.images ++ [h.length]
    ∧ h.length ≠ image
    ∧ readH (Save h m image).1 h.length = readH h image
    ∧ Find (Save h m image).1 (Save h m image).2.1 (readH h image).ID = some h.length
    ∧ (∀ v, readH (writeH (Save h m image).1 image v) h.length = readH h image) := by
  have hcond : ¬((m.images.any fun a => (readH h a).ID == (readH h image).ID) = true) := by
    simp only [List.any_eq_true]
    rintro ⟨a, ha, hb⟩
    exact hfresh a ha (by simpa using hb)
  have hsave : Save h m image =
      (h ++ [readH h image], { m with images := m.images ++ [h.length] }, none) := by
    simp only [Save]
    rw [if_neg hcond]
    rfl
  rw [hsave]
  have hrlen : readH (h ++ [readH h image]) h.length = readH h image :=
    readH_append_self h (readH h image)
  refine ⟨rfl, rfl, (ne_of_lt himg).symm, hrlen, ?_, ?_⟩
  · unfold Find
    have hnone : m.images.find?
        (fun a => (readH (h ++ [readH h image]) a).ID == (readH h image).ID) = none := by
      rw [List.find?_eq_none]
      intro a ha
      rw [readH_append_lt _ _ _ (hWF a ha)]
      simpa using hfresh a ha
    show (m.images ++ [h.length]).find? _ = _
    rw [List.find?_append, hnone]
    simp [List.find?, hrlen]
  · intro v
    rw [readH_writeH_ne _ _ _ _ (ne_of_lt himg)]
    exact hrlen

/-- Witness for C6: mutating the caller's cell after the save leaves the
stored clone intact, and Find returns the clone's distinct pointer. -/
theorem Save_copies_witness :
    readH (writeH (Save heapW4 ⟨[], ⟨[]⟩⟩ 0).1 0 ⟨"9", "mut", "mut", "mut", 99, 99⟩) 1
      = ⟨"9", "t", "u", "l", 2, 3⟩
    ∧ Find (Save heapW4 ⟨[], ⟨[]⟩⟩ 0).1 (Save heapW4 ⟨[], ⟨[]⟩⟩ 0).2.1 "9" = some 1 := by
  have hth := Save_copies heapW4 ⟨[], ⟨[]⟩⟩ 0 (by decide) (by decide) (by decide)
  exact ⟨(hth.2.2.2.2.2 ⟨"9", "mut", "mut", "mut", 99, 99⟩).trans (by decide),
    hth.2.2.2.2.1⟩

/- ------------------------------------------------------------------ -/
/- C3: the empty-id-set query.                                        -/
/- ------------------------------------------------------------------ -/

/-- Character data of the repeated placeholder string. -/
theorem stringsRepeatQ_data (n : Nat) :
    (stringsRepeat "?" n).data = List.replicate n '?' := by
  induction n with
  | zero => rfl
  | succ n ih =>
    show ("?" ++ stringsRepeat "?" n).data = _
    rw [String.data_append, ih, List.replicate_succ]
    rfl

/-- Splitting the repeated placeholder string gives one "?" per placeholder. -/
theorem splitRepeatQ (n : Nat) :
    splitEmptySep (stringsRepeat "?" n) = List.replicate n "?" := by
  unfold splitEmptySep
  rw [stringsRepeatQ_data, List.map_replicate]

/-- Joining one more "?" adds exactly one placeholder character. -/
theorem join_count_cons (l : List String) :
    ((stringsJoin ("?" :: l) ",").data.countP (fun c => c == '?'))
      = 1 + ((stringsJoin l ",").data.countP (fun c => c == '?')) := by
  cases l with
  | nil => rfl
  | cons s rest =>
    show ((("?" ++ ",") ++ stringsJoin (s :: rest) ",").data.countP (fun c => c == '?')) = _
    rw [String.data_append, String.data_append, List.countP_append, List.countP_append]
    have h1 : ("?" : String).data.countP (fun c => c == '?') = 1 := rfl
    have h2 : ("," : String).data.countP (fun c => c == '?') = 0 := rfl
    rw [h1, h2]

/-- The joined placeholder list holds exactly n placeholder characters. -/
theorem joinQ_count (n : Nat) :
    ((stringsJoin (List.replicate n "?") ",").data.countP (fun c => c == '?')) = n := by
  induction n with
  | zero => rfl
  | succ n ih =>
    rw [List.replicate_succ, join_count_cons, ih]
    omega

/-- Decomposition of the search query format string. -/
theorem fmtQuery_data :
    ("select * from votes where puppy_id in (%s)" : String).data
      = "select * from votes where puppy_id in (".data ++ '%' :: 's' :: ")".data := by
  decide

/-- Character data of the built query: literal head, placeholders, closing
parenthesis. -/
theorem findQuery_data (ids : List String) :
    (findQuery ids).data = "select * from votes where puppy_id in (".data
      ++ ((stringsJoin (splitEmptySep (stringsRepeat "?" ids.length)) ",").data ++ [')']) := by
  unfold findQuery Sprintf
  show sprintfAux false _ _ = _
  rw [fmtQuery_data, sprintfAux_lit _ _ _ (by decide), sprintfAux_verb]
  simp [sprintfAux]

/-- The built query holds exactly one placeholder per id. -/
theorem findQuery_count (ids : List String) :
    ((findQuery ids).data.countP (fun c => c == '?')) = ids.length := by
  rw [findQuery_data, List.countP_append, List.countP_append, splitRepeatQ, joinQ_count]
  have h1 : ("select * from votes where puppy_id in (" : String).data.countP
      (fun c => c == '?') = 0 := rfl
  have h2 : ([')'].countP (fun c => c == '?')) = 0 := rfl
  rw [h1, h2]
  omega

/-- C3 counterexample: the empty id set is NOT special-cased.  With zero ids
FindOldPuppies builds and prepares exactly the zero-placeholder query
`select * from votes where puppy_id in ()` — the query the claim says is
never executed — and execution proceeds through it (SQLite accepts the empty
IN list), returning zero rows. -/
theorem findOldPuppies_empty_no_special_case :
    findQuery [] = "select * from votes where puppy_id in ()"
    ∧ (findQuery []).data.countP (fun c => c == '?') = 0
    ∧ prepareFindStmt (findQuery []) = Except.ok 0
    ∧ FindOldPuppies ⟨[], ⟨[]⟩⟩ [] = Except.ok [] :=
  ⟨rfl, rfl, rfl, rfl⟩

/-- C3 (amended): LoadByIds (FindOldPuppies) called with an empty id sequence
returns zero rows on every store state and raises no malformed-query error —
not because the empty id set is special-cased (it is not; the zero-placeholder
query is built and executed) but because SQLite accepts the empty IN list,
which matches no rows. -/
theorem findOldPuppies_empty_zero_rows (m : ImageManager) :
    FindOldPuppies m [] = Except.ok [] := by
  unfold FindOldPuppies prepareFindStmt
  show Except.ok _ = Except.ok _
  congr 1
  have hfil : m.db.votes.filter (rowMatches []) = [] := by
    rw [List.filter_eq_nil_iff]
    intro r _
    simp [rowMatches]
  rw [hfil]
  rfl

/- ------------------------------------------------------------------ -/
/- C7: round-trip persistence.                                        -/
/- ------------------------------------------------------------------ -/

